import Mathlib

/-!
# Verification of the ant-colony simulation core (petrofang/antenboro2)

Shallow embedding of the simulation engine: the pheromone grid
(`src/sim/pheromone.js`), the colony lifecycle (`src/sim/colony.js`),
the ant combat / foraging / movement logic (`src/sim/ant.js`), the
player controller's simulation mutators (`src/render/player.js`) and
the tick orchestrator (`src/sim/engine.js`).

JS numbers are embedded as `ℚ` (exact rational arithmetic; the source
constants 0.95, 0.02, 0.5, 0.3, 1.5 … are all rational).  Distance
comparisons `Math.hypot(dx,dy) < r` are embedded as `dx^2 + dy^2 < r^2`,
which is equivalent for non-negative `r`.  `Math.random()` driven
choices enter the definitions as explicit oracle parameters.
-/

namespace Antenboro

/-! ## Configuration (`src/sim/config.js`) -/

def WORLD_WIDTH : Nat := 100
def WORLD_HEIGHT : Nat := 75
def MAX_ANTS_PER_COLONY : Nat := 200
def FOOD_CARRY_CAPACITY : ℚ := 1
def FOOD_DEPOT_CAPACITY : ℚ := 500
def NEST_RADIUS : ℚ := 5
def SOLDIER_DAMAGE : ℚ := 3
def WORKER_DAMAGE : ℚ := 1
def BITE_COOLDOWN : Nat := 8
def BITE_RANGE : ℚ := 3/2
def PLAYER_BITE_DAMAGE : ℚ := 4
def EGG_INCUBATION_TICKS : Nat := 150
def LARVA_GROWTH_TICKS : Nat := 200
def PUPA_GROWTH_TICKS : Nat := 150
def QUEEN_EGG_LAYING_INTERVAL : Nat := 30
def QUEEN_MIN_FOOD_TO_LAY : ℚ := 50
def PHEROMONE_DECAY_RATE : ℚ := 95/100
def PHEROMONE_CHANNELS : Nat := 2
def ANT_SPEED : ℚ := 3/10

/-! ## PheromoneGrid (`src/sim/pheromone.js`)

The grid is embedded as a function `channel → x → y → ℚ`.  `deposit` and
`read` floor their float coordinates to cell indices; here we take the
cell indices (`ix iy : ℤ`, the result of `Math.floor`) as the arguments.
-/

def PherGrid : Type := Nat → Nat → Nat → ℚ

/-- The all-zero grid built by `_createEmptyGrid`. -/
def emptyGrid : PherGrid := fun _ _ _ => 0

/-- In-bounds test used by both `deposit` and `read`:
`ix < 0 || ix >= WORLD_WIDTH || iy < 0 || iy >= WORLD_HEIGHT` (negated). -/
def inBounds (ix iy : ℤ) : Prop :=
  0 ≤ ix ∧ ix < (WORLD_WIDTH : ℤ) ∧ 0 ≤ iy ∧ iy < (WORLD_HEIGHT : ℤ)

instance (ix iy : ℤ) : Decidable (inBounds ix iy) := by
  unfold inBounds; infer_instance

/-- `PheromoneGrid.deposit`: add `strength` to the cell containing the
position, then clamp the cell to the hard cap 1000; silent no-op out of
bounds. -/
def deposit (g : PherGrid) (ix iy : ℤ) (c : Nat) (strength : ℚ) : PherGrid :=
  if inBounds ix iy then
    fun c' x y =>
      if c' = c ∧ x = ix.toNat ∧ y = iy.toNat then
        min (g c' x y + strength) 1000
      else g c' x y
  else g

/-- `PheromoneGrid.read`: the cell value, or 0 out of bounds. -/
def read (g : PherGrid) (ix iy : ℤ) (c : Nat) : ℚ :=
  if inBounds ix iy then g c ix.toNat iy.toNat else 0

/-- One cell of `PheromoneGrid.update`: cells `≤ 0` are skipped
(`continue`); otherwise `val = val * rate - floorDrain`, snapped to 0
below 0.5.  With `PHEROMONE_CHANNELS = 2` the alarm branch
(`c >= 2 ? alarmRate : foodRate`) is dead, so every live channel decays
at `PHEROMONE_DECAY_RATE`. -/
def decayCell (val : ℚ) : ℚ :=
  if val ≤ 0 then val
  else
    let v := val * PHEROMONE_DECAY_RATE - 2/100
    if v < 1/2 then 0 else v

/-- `PheromoneGrid.update`: apply the decay step to every cell of every
channel. -/
def pherUpdate (g : PherGrid) : PherGrid :=
  fun c x y =>
    if c < PHEROMONE_CHANNELS ∧ x < WORLD_WIDTH ∧ y < WORLD_HEIGHT then
      decayCell (g c x y)
    else g c x y

/-- A sequence of deposits at one cell (the "many small cumulative
deposits" of the spec): fold `deposit` over a list of strengths. -/
def multiDeposit (g : PherGrid) (ix iy : ℤ) (c : Nat) : List ℚ → PherGrid
  | [] => g
  | s :: rest => multiDeposit (deposit g ix iy c s) ix iy c rest

/-! ## Ant (`src/sim/ant.js`) and the player controller's simulation
mutators (`src/render/player.js`)

Distances `Math.hypot(dx,dy) ⋈ r` are embedded by their squares
`dx²+dy² ⋈ r²` (equivalent for non-negative operands).  The facing
angle is embedded by its direction vector `(cos θ, sin θ)` where a
claim needs it; the source's mirror `θ ↦ π − θ` is `(c,s) ↦ (−c,s)`
and `θ ↦ −θ` is `(c,s) ↦ (c,−s)`. -/

inductive AntState
  | WANDERING
  | FOLLOWING
  | CARRYING
  | FIGHTING
  | GUARDING
deriving Repr, DecidableEq

/-- The victim-side fields touched by a bite. -/
structure CombatAnt where
  health : ℚ
  isDead : Bool
  hitFlash : Nat
deriving Repr, DecidableEq

/-- The attacker-side fields touched by `Ant._attackEnemy`. -/
structure AttackerS where
  soldier : Bool         -- this.type === 'SOLDIER'
  biteCooldown : Nat     -- never negative: set to 8, decremented only when > 0
  entsKilled : Nat
  state : AntState
deriving Repr, DecidableEq

/-- `Ant._attackEnemy` (ant.js): set state to FIGHTING and face the
enemy (the `atan2` facing update is not modelled — no claim reads it);
if out of bite range, return and close in; else if the cooldown has
elapsed apply caste-dependent damage, flash the victim, reset the
cooldown, and if the victim's health dropped to ≤ 0 mark it dead and
count the kill. -/
def attackEnemy (atk : AttackerS) (distSq : ℚ) (enemy : CombatAnt) :
    AttackerS × CombatAnt :=
  let atk1 := { atk with state := AntState.FIGHTING }
  if BITE_RANGE ^ 2 < distSq then (atk1, enemy)
  else if atk1.biteCooldown = 0 then
    let damage := if atk1.soldier then SOLDIER_DAMAGE else WORKER_DAMAGE
    let h := enemy.health - damage
    ({ atk1 with
        biteCooldown := BITE_COOLDOWN,
        entsKilled := if h ≤ 0 then atk1.entsKilled + 1 else atk1.entsKilled },
     { enemy with
        health := h, hitFlash := 10,
        isDead := if h ≤ 0 then true else enemy.isDead })
  else (atk1, enemy)

/-- `PlayerController._bite` (player.js) for one candidate target: a
no-op while the cooldown runs; otherwise, if the candidate is alive and
within bite range (the nearest-enemy scan keeps exactly such a target),
decrement its health by `PLAYER_BITE_DAMAGE` and reset the cooldown.
The source sets no dead flag on this path. -/
def playerBite (biteCooldown : Nat) (distSq : ℚ) (target : CombatAnt) :
    Nat × CombatAnt :=
  if 0 < biteCooldown then (biteCooldown, target)
  else if ¬target.isDead ∧ distSq < BITE_RANGE ^ 2 then
    (BITE_COOLDOWN, { target with health := target.health - PLAYER_BITE_DAMAGE })
  else (biteCooldown, target)

/-- The entry guards of `Ant.update`: an already-dead ant is skipped;
an ant whose health is ≤ 0 is marked dead and skipped; only then does
the per-tick logic (abstracted here as `rest`) run. -/
def antUpdateEntry (rest : CombatAnt → CombatAnt) (a : CombatAnt) : CombatAnt :=
  if a.isDead then a
  else if a.health ≤ 0 then { a with isDead := true }
  else rest a

/-- The pickup branch of `Ant._forage` (ant.js): `_checkFoodAtFeet`
returned a patch (its guards — amount > 0, distance < 1.5 — are the
hypotheses of the theorems below); take up to the carry capacity; on a
positive take debit the patch, carry the food and switch to CARRYING
(the U-turn jitter touches only the angle).  Returns
(patch amount, carried food, state). -/
def foragePickup (amount carrying : ℚ) (st : AntState) : ℚ × ℚ × AntState :=
  let taken := min FOOD_CARRY_CAPACITY amount
  if 0 < taken then (amount - taken, taken, AntState.CARRYING)
  else (amount, carrying, st)

/-- `PlayerController._pickupFood` (player.js): if a patch is within
1.5 cells and has a positive amount, take up to the carry capacity,
debit the patch, carry the food and switch to CARRYING. -/
def playerPickupFood (distSq amount carrying : ℚ) (st : AntState) :
    ℚ × ℚ × AntState :=
  if distSq < (3/2) ^ 2 ∧ 0 < amount then
    let taken := min FOOD_CARRY_CAPACITY amount
    (amount - taken, taken, AntState.CARRYING)
  else (amount, carrying, st)

/-- The nest-arrival branch of `Ant._returnHome` (ant.js): inside the
nest radius, credit the colony ledger with the carried food, clear it
and revert to WANDERING (the trail deposit and homeward steering touch
only the pheromone grid and the angle).  Returns
(colony food, carried food, state). -/
def returnHome (distSqToNest food carrying : ℚ) (st : AntState) :
    ℚ × ℚ × AntState :=
  if distSqToNest < NEST_RADIUS ^ 2 then (food + carrying, 0, AntState.WANDERING)
  else (food, carrying, st)

/-- `PlayerController._depositFood` (player.js): inside the nest radius
and carrying food, credit the colony ledger, clear the carried food and
revert to WANDERING. -/
def playerDepositFood (distSqToNest food carrying : ℚ) (st : AntState) :
    ℚ × ℚ × AntState :=
  if distSqToNest < NEST_RADIUS ^ 2 ∧ 0 < carrying then
    (food + carrying, 0, AntState.WANDERING)
  else (food, carrying, st)

/-- The fields `Ant._move` reads and writes: position and facing, the
facing embedded as its direction vector. -/
structure MoveS where
  x : ℚ
  y : ℚ
  dirX : ℚ   -- cos(angle)
  dirY : ℚ   -- sin(angle)
deriving Repr, DecidableEq

/-- `Ant._move` (ant.js): advance by `(cos θ, sin θ) · spd`; bounce off
the borders: a horizontal crossing mirrors the angle (`θ ↦ π − θ`,
i.e. `dirX ↦ −dirX`) and clamps x into `[1, WORLD_WIDTH−2]`; a vertical
crossing mirrors it (`θ ↦ −θ`, i.e. `dirY ↦ −dirY`) and clamps y into
`[1, WORLD_HEIGHT−2]`. -/
def antMove (isPlayerControlled : Bool) (a : MoveS) : MoveS :=
  let spd := if isPlayerControlled then ANT_SPEED * (3/2) else ANT_SPEED
  let nx := a.x + a.dirX * spd
  let ny := a.y + a.dirY * spd
  let dirX' := if nx < 1 ∨ (WORLD_WIDTH : ℚ) - 1 ≤ nx then -a.dirX else a.dirX
  let nx' := if nx < 1 ∨ (WORLD_WIDTH : ℚ) - 1 ≤ nx then
      max 1 (min ((WORLD_WIDTH : ℚ) - 2) nx) else nx
  let dirY' := if ny < 1 ∨ (WORLD_HEIGHT : ℚ) - 1 ≤ ny then -a.dirY else a.dirY
  let ny' := if ny < 1 ∨ (WORLD_HEIGHT : ℚ) - 1 ≤ ny then
      max 1 (min ((WORLD_HEIGHT : ℚ) - 2) ny) else ny
  ⟨nx', ny', dirX', dirY'⟩

/-! ## Colony (`src/sim/colony.js`)

`Colony.update` first runs every ant's own `Ant.update` and splices out
the ants that ended the pass dead.  An ant's update touches the world's
pheromone grid, the food patches, the *enemy* roster (combat) and its
own colony's food ledger — but never adds or removes entries of its own
roster, and the only colony fields it writes are the ledger (nest
deposits) and its own flags.  That pass is therefore embedded as
explicit data: the roster as each ant's update left it, the queen
object's dead flag after the pass (the `queen` reference outlives
pruning), and the total ledger credit the pass deposited. -/

/-- The roster-relevant state of one ant. -/
structure AntS where
  isDead : Bool
deriving Repr, DecidableEq

inductive Caste
  | WORKER
  | SOLDIER
  | QUEEN
deriving Repr, DecidableEq

/-- One brood record `{ age, type }`. -/
structure Brood where
  age : Nat
  type : Caste
deriving Repr, DecidableEq

structure Colony where
  ants : List AntS
  queenDead : Bool       -- this.queen.isDead
  foodAmount : ℚ
  eggQueue : List Brood
  larvaQueue : List Brood
  pupaQueue : List Brood
  eggLayingTimer : Nat
deriving Repr, DecidableEq

/-- The outcome of the ant-update pass inside `Colony.update` (see the
section comment above). -/
structure AntPhase where
  antsAfter : List AntS  -- the roster, each ant as its own update left it
  queenDeadAfter : Bool  -- this.queen.isDead after the pass
  foodCredit : ℚ         -- total nest deposits made during the pass
deriving Repr, DecidableEq

/-- One brood-queue pass (the reverse-indexed `for` loop with `splice`):
every item's age is incremented; items reaching the threshold are
removed and pushed to the next stage.  Returns (remaining, promoted);
the downward iteration pushes the promoted items in reverse order. -/
def promote (thr : Nat) (q : List Brood) : List Brood × List Brood :=
  let aged := q.map fun b => { b with age := b.age + 1 }
  (aged.filter (fun b => b.age < thr), (aged.filter (fun b => thr ≤ b.age)).reverse)

/-- `Colony._layEgg`: push one egg of age 0 — worker with probability
0.8, soldier otherwise (`workerRoll` is that random draw) — and debit
the fixed 5-food cost. -/
def layEgg (workerRoll : Bool) (c : Colony) : Colony :=
  { c with
    eggQueue := c.eggQueue ++
      [⟨0, if workerRoll then Caste.WORKER else Caste.SOLDIER⟩],
    foodAmount := c.foodAmount - 5 }

/-- `Colony.update`: run every ant and prune the dead (the `phase`
data); if the queen is alive, advance the egg timer and lay exactly one
egg when timer ≥ interval ∧ food ≥ threshold ∧ roster < cap, resetting
the timer; then run the three brood passes in order — each pass sees
the items the previous pass just pushed, and pupae reaching their
threshold become brand-new live ants on the roster. -/
def Colony.update (phase : AntPhase) (workerRoll : Bool) (c : Colony) : Colony :=
  let ants1 := phase.antsAfter.filter fun a => !a.isDead
  let c1 : Colony := { c with
    ants := ants1,
    queenDead := phase.queenDeadAfter,
    foodAmount := c.foodAmount + phase.foodCredit }
  let c2 :=
    if c1.queenDead then c1
    else
      let timer := c1.eggLayingTimer + 1
      if QUEEN_EGG_LAYING_INTERVAL ≤ timer ∧
          QUEEN_MIN_FOOD_TO_LAY ≤ c1.foodAmount ∧
          c1.ants.length < MAX_ANTS_PER_COLONY then
        { layEgg workerRoll c1 with eggLayingTimer := 0 }
      else
        { c1 with eggLayingTimer := timer }
  let eggPass := promote EGG_INCUBATION_TICKS c2.eggQueue
  let larvaPass := promote LARVA_GROWTH_TICKS (c2.larvaQueue ++ eggPass.2)
  let pupaPass := promote PUPA_GROWTH_TICKS (c2.pupaQueue ++ larvaPass.2)
  { c2 with
    eggQueue := eggPass.1,
    larvaQueue := larvaPass.1,
    pupaQueue := pupaPass.1,
    ants := c2.ants ++ pupaPass.2.map fun _ => ⟨false⟩ }

/-! ## SimulationEngine (`src/sim/engine.js`) -/

inductive Victory
  | WON
  | LOST
deriving Repr, DecidableEq

/-- The world as the engine sees it: the pheromone grid and the food
patch amounts. -/
structure WorldS where
  pher : PherGrid
  foodPatches : List ℚ

/-- `World.update` (world.js): decay the pheromones; the respawn roll
`Math.random() < CONFIG.FOOD_RESPAWN_CHANCE` compares against a key
absent from config.js (`undefined`), which is false for every draw, so
depleted patches never respawn. -/
def WorldS.update (w : WorldS) : WorldS :=
  { w with pher := pherUpdate w.pher }

structure EngineS where
  world : WorldS
  playerColony : Colony
  enemyColony : Colony
  tick : Nat
  isPaused : Bool
  gameOver : Bool
  victoryState : Option Victory

/-- `SimulationEngine.updateTick`: a no-op after game over or while
paused; otherwise update the world, then colony A (player), then
colony B (enemy) — the two ant-update passes entering as `phaseA`,
`phaseB` and the egg caste draws as `rollA`, `rollB` — then check the
queens in that fixed order (the `queen` references are always non-null
after construction): a dead player queen sets game over and LOST; a
dead enemy queen, if game over is still unset, sets game over and WON;
finally advance the tick counter. -/
def updateTick (phaseA phaseB : AntPhase) (rollA rollB : Bool)
    (s : EngineS) : EngineS :=
  if s.gameOver || s.isPaused then s
  else
    let w := s.world.update
    let colA := Colony.update phaseA rollA s.playerColony
    let colB := Colony.update phaseB rollB s.enemyColony
    let go1 := s.gameOver || colA.queenDead
    let v1 := if colA.queenDead && !s.gameOver then some Victory.LOST
      else s.victoryState
    let go2 := go1 || colB.queenDead
    let v2 := if colB.queenDead && !go1 then some Victory.WON else v1
    { world := w, playerColony := colA, enemyColony := colB,
      tick := s.tick + 1, isPaused := s.isPaused,
      gameOver := go2, victoryState := v2 }

/-! ## Concrete states for the scenario proofs -/

/-- Scenario A start (spec §8): food 100, empty brood, timer 0, the
stationary live queen as the only roster member. -/
def scenarioStart : Colony := ⟨[⟨false⟩], false, 100, [], [], [], 0⟩

/-- The ant-update pass of a queen-only colony with no enemies around:
the queen is stationary, stays alive and deposits nothing. -/
def queenOnlyPhase : AntPhase := ⟨[⟨false⟩], false, 0⟩

/-- One Scenario-A tick. -/
def scenarioStep (c : Colony) : Colony := Colony.update queenOnlyPhase true c

/-- One Scenario-C pickup applied to the patch amount. -/
def pickStep (amount : ℚ) : ℚ := (foragePickup amount 0 AntState.WANDERING).1

end Antenboro

namespace Antenboro

/-! ## Helper lemmas and theorems -/

/-- One decay step never increases a cell. -/
lemma decayCell_le (v : ℚ) : decayCell v ≤ v := by
  unfold decayCell
  by_cases h : v ≤ 0
  · simp [h]
  · push_neg at h
    simp only [if_neg (not_le.mpr h)]
    by_cases h2 : v * PHEROMONE_DECAY_RATE - 2/100 < 1/2
    · simp only [if_pos h2]; linarith
    · simp only [if_neg h2]
      have : v * PHEROMONE_DECAY_RATE ≤ v := by
        unfold PHEROMONE_DECAY_RATE; nlinarith
      linarith

/-- After one decay step a non-negative cell is 0 or at least 1/2. -/
lemma decayCell_zero_or_half (v : ℚ) (hv : 0 ≤ v) :
    decayCell v = 0 ∨ 1/2 ≤ decayCell v := by
  unfold decayCell
  by_cases h : v ≤ 0
  · left; simp [h]; linarith
  · simp only [if_neg h]
    by_cases h2 : v * PHEROMONE_DECAY_RATE - 2/100 < 1/2
    · left; simp only [if_pos h2]
    · right; simp only [if_neg h2]; linarith

/-- Reading the cell a deposit wrote: the deposit adds and caps. -/
lemma read_deposit_same (g : PherGrid) (ix iy : ℤ) (c : Nat) (s : ℚ)
    (hin : inBounds ix iy) :
    read (deposit g ix iy c s) ix iy c = min (read g ix iy c + s) 1000 := by
  unfold read deposit
  simp [hin]

/-- A run of non-negative deposits at one cell accumulates their sum,
capped at 1000 (provided the cell started at or below the cap). -/
lemma read_multiDeposit (ix iy : ℤ) (c : Nat) (hin : inBounds ix iy) :
    ∀ (L : List ℚ) (g : PherGrid), (∀ t ∈ L, 0 ≤ t) →
      read g ix iy c ≤ 1000 →
      read (multiDeposit g ix iy c L) ix iy c
        = min (read g ix iy c + L.sum) 1000
  | [], g, _, hcap => by
      simp only [multiDeposit, List.sum_nil, add_zero]
      exact (min_eq_left hcap).symm
  | s :: rest, g, hL, hcap => by
      have hs : 0 ≤ s := hL s (List.mem_cons_self s rest)
      have hrest : ∀ t ∈ rest, 0 ≤ t := fun t ht => hL t (List.mem_cons_of_mem s ht)
      have hsum : 0 ≤ rest.sum := List.sum_nonneg hrest
      have hcap' : read (deposit g ix iy c s) ix iy c ≤ 1000 := by
        rw [read_deposit_same g ix iy c s hin]; exact min_le_right _ _
      simp only [multiDeposit]
      rw [read_multiDeposit ix iy c hin rest (deposit g ix iy c s) hrest hcap',
        read_deposit_same g ix iy c s hin, List.sum_cons]
      rcases le_total (read g ix iy c + s) 1000 with h | h
      · rw [min_eq_left h, add_assoc]
      · rw [min_eq_right h]
        rw [min_eq_right (by linarith : (1000 : ℚ) ≤ 1000 + rest.sum),
          min_eq_right (by linarith : (1000 : ℚ) ≤ read g ix iy c + (s + rest.sum))]

/-- **C5** — For every in-bounds cell, valid channel and non-negative
strength, a deposit followed by a read at the same cell returns the
previous value plus the strength, capped at 1000; and a run of
non-negative deposits accumulates the capped sum, so the cap holds the
same way for one large deposit and for many small ones. -/
theorem c5_deposit_read_capped (g : PherGrid) (ix iy : ℤ) (c : Nat) (s : ℚ)
    (L : List ℚ) (hin : inBounds ix iy) (hc : c < PHEROMONE_CHANNELS)
    (hs : 0 ≤ s) (hL : ∀ t ∈ L, 0 ≤ t) (hcap : read g ix iy c ≤ 1000) :
    read (deposit g ix iy c s) ix iy c = min (read g ix iy c + s) 1000 ∧
    read (multiDeposit g ix iy c L) ix iy c
      = min (read g ix iy c + L.sum) 1000 :=
  ⟨read_deposit_same g ix iy c s hin,
   read_multiDeposit ix iy c hin L g hL hcap⟩

/-- Witness for C5: one deposit of 1200 at cell (2,2) caps to 1000, and
two deposits of 600 cap to 1000 as well. -/
theorem c5_deposit_read_capped_witness :
    inBounds 2 2 ∧ (0 : Nat) < PHEROMONE_CHANNELS ∧ (0 : ℚ) ≤ 1200 ∧
    read emptyGrid 2 2 0 ≤ 1000 ∧
    (read (deposit emptyGrid 2 2 0 1200) 2 2 0
        = min (read emptyGrid 2 2 0 + 1200) 1000 ∧
     read (multiDeposit emptyGrid 2 2 0 [600, 600]) 2 2 0
        = min (read emptyGrid 2 2 0 + ([600, 600] : List ℚ).sum) 1000) :=
  ⟨by decide, by decide, by norm_num,
   by norm_num [read, emptyGrid, inBounds, WORLD_WIDTH, WORLD_HEIGHT],
   c5_deposit_read_capped emptyGrid 2 2 0 1200 [600, 600] (by decide)
     (by decide) (by norm_num)
     (by intro t ht; simp only [List.mem_cons, List.not_mem_nil, or_false] at ht
         rcases ht with h | h <;> rw [h] <;> norm_num)
     (by norm_num [read, emptyGrid, inBounds, WORLD_WIDTH, WORLD_HEIGHT])⟩

/-- **C6** — For a channel that receives no deposits during a tick,
the value `read` returns at any cell after the tick's decay is at most
the value read before it: `read` is non-increasing tick-over-tick on
undeposited channels. -/
theorem c6_read_nonincreasing_after_decay (g : PherGrid) (ix iy : ℤ)
    (c : Nat) : read (pherUpdate g) ix iy c ≤ read g ix iy c := by
  unfold read
  by_cases hin : inBounds ix iy
  · simp only [if_pos hin]
    unfold pherUpdate
    by_cases hg : c < PHEROMONE_CHANNELS ∧ ix.toNat < WORLD_WIDTH ∧
        iy.toNat < WORLD_HEIGHT
    · simp only [if_pos hg]; exact decayCell_le _
    · simp only [if_neg hg]; exact le_refl _
  · simp only [if_neg hin]; exact le_refl _

/-- **C10** — After a `PheromoneGrid.update` decay step, every
(non-negatively valued) cell of every channel holds either exactly 0 or
a value at least 1/2: the snap-to-zero epsilon is 0.5, so no positive
value below 0.5 persists across a tick. -/
theorem c10_decay_snaps_below_half (g : PherGrid) (c x y : Nat)
    (hc : c < PHEROMONE_CHANNELS) (hx : x < WORLD_WIDTH)
    (hy : y < WORLD_HEIGHT) (hv : 0 ≤ g c x y) :
    pherUpdate g c x y = 0 ∨ 1/2 ≤ pherUpdate g c x y := by
  unfold pherUpdate
  have hg : c < PHEROMONE_CHANNELS ∧ x < WORLD_WIDTH ∧ y < WORLD_HEIGHT :=
    ⟨hc, hx, hy⟩
  simp only [if_pos hg]
  exact decayCell_zero_or_half (g c x y) hv

/-- Witness for C10 at the empty grid's cell (0,0,0). -/
theorem c10_decay_snaps_below_half_witness :
    (0 : Nat) < PHEROMONE_CHANNELS ∧ (0 : Nat) < WORLD_WIDTH ∧
    (0 : Nat) < WORLD_HEIGHT ∧ 0 ≤ emptyGrid 0 0 0 ∧
    (pherUpdate emptyGrid 0 0 0 = 0 ∨ 1/2 ≤ pherUpdate emptyGrid 0 0 0) :=
  ⟨by decide, by decide, by decide, by norm_num [emptyGrid],
   c10_decay_snaps_below_half emptyGrid 0 0 0 (by decide) (by decide)
     (by decide) (by norm_num [emptyGrid])⟩

/-- **C2, counterexample** — The player's bite is a damage path that
does not set the dead flag on the tick the damage lands: a bite (off
cooldown, victim alive and in range at distance 0) on a 4-HP victim
drives its health to 0, yet the victim's `isDead` stays false. -/
theorem c2_counterexample :
    (playerBite 0 0 ⟨4, false, 0⟩).2.health ≤ 0 ∧
    (playerBite 0 0 ⟨4, false, 0⟩).2.isDead = false := by
  norm_num [playerBite, BITE_RANGE, PLAYER_BITE_DAMAGE, BITE_COOLDOWN]

/-- **C2, amended** — An AI ant's bite that drives the victim's health
to ≤ 0 sets the victim's dead flag in the same call; the player's bite
never touches the dead flag (it only decrements health), and such a
victim is marked dead at the entry of its own next update. -/
theorem c2_amended_dead_flag_paths (atk : AttackerS) (distSq : ℚ)
    (enemy : CombatAnt) (cd : Nat) (t : CombatAnt)
    (rest : CombatAnt → CombatAnt) (a : CombatAnt)
    (hrange : ¬ BITE_RANGE ^ 2 < distSq) (hcd : atk.biteCooldown = 0)
    (hlethal : enemy.health -
      (if atk.soldier then SOLDIER_DAMAGE else WORKER_DAMAGE) ≤ 0)
    (halive : a.isDead = false) (hhp : a.health ≤ 0) :
    (attackEnemy atk distSq enemy).2.isDead = true ∧
    (playerBite cd distSq t).2.isDead = t.isDead ∧
    (antUpdateEntry rest a).isDead = true := by
  refine ⟨?_, ?_, ?_⟩
  · simp [attackEnemy, hrange, hcd, hlethal]
  · unfold playerBite
    by_cases h1 : 0 < cd
    · rw [if_pos h1]
    · rw [if_neg h1]
      split
      · rfl
      · rfl
  · unfold antUpdateEntry
    simp [halive, hhp]

/-- Witness for C2 (amended): a soldier (damage 3) biting a 3-HP worker
at distance 0, a player bite on cooldown 5, and a 0-HP victim entering
its next update. -/
theorem c2_amended_dead_flag_paths_witness :
    (¬ BITE_RANGE ^ 2 < (0 : ℚ)) ∧
    (⟨true, 0, 0, AntState.WANDERING⟩ : AttackerS).biteCooldown = 0 ∧
    ((⟨3, false, 0⟩ : CombatAnt).health -
      (if (⟨true, 0, 0, AntState.WANDERING⟩ : AttackerS).soldier
        then SOLDIER_DAMAGE else WORKER_DAMAGE) ≤ 0) ∧
    ((attackEnemy ⟨true, 0, 0, AntState.WANDERING⟩ 0 ⟨3, false, 0⟩).2.isDead
        = true ∧
     (playerBite 5 0 ⟨10, false, 0⟩).2.isDead
        = (⟨10, false, 0⟩ : CombatAnt).isDead ∧
     (antUpdateEntry id ⟨0, false, 0⟩).isDead = true) :=
  ⟨by norm_num [BITE_RANGE], rfl, by norm_num [SOLDIER_DAMAGE],
   c2_amended_dead_flag_paths ⟨true, 0, 0, AntState.WANDERING⟩ 0 ⟨3, false, 0⟩
     5 ⟨10, false, 0⟩ id ⟨0, false, 0⟩ (by norm_num [BITE_RANGE]) rfl
     (by norm_num [SOLDIER_DAMAGE]) rfl (by norm_num)⟩

/-- **C7, counterexample** — The depot capacity is never enforced: a
player food deposit at the nest with the ledger already at
`FOOD_DEPOT_CAPACITY` pushes it above the capacity. -/
theorem c7_counterexample :
    FOOD_DEPOT_CAPACITY <
      (playerDepositFood 0 FOOD_DEPOT_CAPACITY 1 AntState.CARRYING).1 := by
  norm_num [playerDepositFood, FOOD_DEPOT_CAPACITY, NEST_RADIUS]

/-- **C7, amended** — The colony food ledger stays ≥ 0 across every
operation that touches it — a returning ant's credit, the player's
deposit, and `Colony.update`'s egg debit (gated by the ≥ 50 threshold)
— but no upper cap is enforced: `FOOD_DEPOT_CAPACITY` is never
consulted (see the counterexample). -/
theorem c7_amended_ledger_nonneg (d1 f1 k1 d2 f2 k2 : ℚ)
    (st1 st2 : AntState) (c : Colony) (ph : AntPhase) (roll : Bool)
    (h1 : 0 ≤ f1) (h2 : 0 ≤ k1) (h3 : 0 ≤ f2) (h4 : 0 ≤ k2)
    (h5 : 0 ≤ c.foodAmount) (h6 : 0 ≤ ph.foodCredit) :
    0 ≤ (returnHome d1 f1 k1 st1).1 ∧
    0 ≤ (playerDepositFood d2 f2 k2 st2).1 ∧
    0 ≤ (Colony.update ph roll c).foodAmount := by
  refine ⟨?_, ?_, ?_⟩
  · unfold returnHome
    by_cases h : d1 < NEST_RADIUS ^ 2 <;> simp [h] <;> linarith
  · unfold playerDepositFood
    by_cases h : d2 < NEST_RADIUS ^ 2 ∧ 0 < k2 <;> simp [h] <;> linarith
  · unfold Colony.update
    by_cases hq : ph.queenDeadAfter
    · simp only [hq, if_true]; linarith
    · simp only [hq, if_false, Bool.false_eq_true]
      by_cases hg : QUEEN_EGG_LAYING_INTERVAL ≤ c.eggLayingTimer + 1 ∧
          QUEEN_MIN_FOOD_TO_LAY ≤ c.foodAmount + ph.foodCredit ∧
          (ph.antsAfter.filter fun a => !a.isDead).length <
            MAX_ANTS_PER_COLONY
      · simp only [if_pos hg, layEgg]
        have := hg.2.1
        unfold QUEEN_MIN_FOOD_TO_LAY at this
        linarith
      · simp only [if_neg hg]; linarith

/-- Witness for C7 (amended): concrete non-negative ledgers and credits
around the scenario-A start colony. -/
theorem c7_amended_ledger_nonneg_witness :
    (0 : ℚ) ≤ 20 ∧ (0 : ℚ) ≤ 1 ∧ 0 ≤ scenarioStart.foodAmount ∧
    0 ≤ queenOnlyPhase.foodCredit ∧
    (0 ≤ (returnHome 0 20 1 AntState.CARRYING).1 ∧
     0 ≤ (playerDepositFood 0 20 1 AntState.CARRYING).1 ∧
     0 ≤ (Colony.update queenOnlyPhase true scenarioStart).foodAmount) :=
  ⟨by norm_num, by norm_num, by norm_num [scenarioStart],
   by norm_num [queenOnlyPhase],
   c7_amended_ledger_nonneg 0 20 1 0 20 1 AntState.CARRYING AntState.CARRYING
     scenarioStart queenOnlyPhase true (by norm_num) (by norm_num)
     (by norm_num) (by norm_num) (by norm_num [scenarioStart])
     (by norm_num [queenOnlyPhase])⟩

/-- **C8** — For an ant whose next step would exceed the world bounds,
one `_move` mirrors the boundary-crossing component of the facing
(horizontal crossing: `θ ↦ π−θ`, embedded as `dirX ↦ −dirX`; vertical:
`θ ↦ −θ`, `dirY ↦ −dirY`) and the resulting position lies strictly
inside the world, in the interior band `[1, W−1) × [1, H−1)`. -/
theorem c8_boundary_reflect (pc : Bool) (a : MoveS) (nx ny : ℚ)
    (hnx : nx = a.x + a.dirX * (if pc then ANT_SPEED * (3/2) else ANT_SPEED))
    (hny : ny = a.y + a.dirY * (if pc then ANT_SPEED * (3/2) else ANT_SPEED))
    (hcross : (nx < 1 ∨ (WORLD_WIDTH : ℚ) - 1 ≤ nx) ∨
      (ny < 1 ∨ (WORLD_HEIGHT : ℚ) - 1 ≤ ny)) :
    ((nx < 1 ∨ (WORLD_WIDTH : ℚ) - 1 ≤ nx) → (antMove pc a).dirX = -a.dirX) ∧
    ((ny < 1 ∨ (WORLD_HEIGHT : ℚ) - 1 ≤ ny) → (antMove pc a).dirY = -a.dirY) ∧
    1 ≤ (antMove pc a).x ∧ (antMove pc a).x < (WORLD_WIDTH : ℚ) - 1 ∧
    1 ≤ (antMove pc a).y ∧ (antMove pc a).y < (WORLD_HEIGHT : ℚ) - 1 := by
  have hx' : (antMove pc a).x =
      if nx < 1 ∨ (WORLD_WIDTH : ℚ) - 1 ≤ nx then
        max 1 (min ((WORLD_WIDTH : ℚ) - 2) nx) else nx := by
    rw [hnx]; rfl
  have hy' : (antMove pc a).y =
      if ny < 1 ∨ (WORLD_HEIGHT : ℚ) - 1 ≤ ny then
        max 1 (min ((WORLD_HEIGHT : ℚ) - 2) ny) else ny := by
    rw [hny]; rfl
  have hdx : (antMove pc a).dirX =
      if nx < 1 ∨ (WORLD_WIDTH : ℚ) - 1 ≤ nx then -a.dirX else a.dirX := by
    rw [hnx]; rfl
  have hdy : (antMove pc a).dirY =
      if ny < 1 ∨ (WORLD_HEIGHT : ℚ) - 1 ≤ ny then -a.dirY else a.dirY := by
    rw [hny]; rfl
  have hW : (WORLD_WIDTH : ℚ) = 100 := by norm_num [WORLD_WIDTH]
  have hH : (WORLD_HEIGHT : ℚ) = 75 := by norm_num [WORLD_HEIGHT]
  refine ⟨fun h => ?_, fun h => ?_, ?_, ?_, ?_, ?_⟩
  · rw [hdx, if_pos h]
  · rw [hdy, if_pos h]
  · rw [hx']
    by_cases h : nx < 1 ∨ (WORLD_WIDTH : ℚ) - 1 ≤ nx
    · rw [if_pos h]; exact le_max_left _ _
    · rw [if_neg h]; push_neg at h; exact h.1
  · rw [hx']
    by_cases h : nx < 1 ∨ (WORLD_WIDTH : ℚ) - 1 ≤ nx
    · rw [if_pos h, hW]
      have h1 : (1 : ℚ) ⊔ ((100 : ℚ) - 2) ⊓ nx ≤ 98 := by
        apply max_le
        · norm_num
        · exact le_trans (min_le_left _ _) (by norm_num)
      linarith
    · rw [if_neg h]; push_neg at h; exact h.2
  · rw [hy']
    by_cases h : ny < 1 ∨ (WORLD_HEIGHT : ℚ) - 1 ≤ ny
    · rw [if_pos h]; exact le_max_left _ _
    · rw [if_neg h]; push_neg at h; exact h.1
  · rw [hy']
    by_cases h : ny < 1 ∨ (WORLD_HEIGHT : ℚ) - 1 ≤ ny
    · rw [if_pos h, hH]
      have h1 : (1 : ℚ) ⊔ ((75 : ℚ) - 2) ⊓ ny ≤ 73 := by
        apply max_le
        · norm_num
        · exact le_trans (min_le_left _ _) (by norm_num)
      linarith
    · rw [if_neg h]; push_neg at h; exact h.2

/-- Witness for C8: an AI ant at x = 98.9 heading straight right
(cos 0 = 1, sin 0 = 0) steps to 99.2, past `WORLD_WIDTH − 1 = 99`. -/
theorem c8_boundary_reflect_witness :
    (496/5 : ℚ) = (989/10 : ℚ) + 1 *
      (if false then ANT_SPEED * (3/2) else ANT_SPEED) ∧
    (37 : ℚ) = 37 + 0 * (if false then ANT_SPEED * (3/2) else ANT_SPEED) ∧
    (((496/5 : ℚ) < 1 ∨ (WORLD_WIDTH : ℚ) - 1 ≤ 496/5) ∨
      ((37 : ℚ) < 1 ∨ (WORLD_HEIGHT : ℚ) - 1 ≤ 37)) ∧
    ((((496/5 : ℚ) < 1 ∨ (WORLD_WIDTH : ℚ) - 1 ≤ 496/5) →
        (antMove false ⟨989/10, 37, 1, 0⟩).dirX = -(1 : ℚ)) ∧
     (((37 : ℚ) < 1 ∨ (WORLD_HEIGHT : ℚ) - 1 ≤ 37) →
        (antMove false ⟨989/10, 37, 1, 0⟩).dirY = -(0 : ℚ)) ∧
     1 ≤ (antMove false ⟨989/10, 37, 1, 0⟩).x ∧
     (antMove false ⟨989/10, 37, 1, 0⟩).x < (WORLD_WIDTH : ℚ) - 1 ∧
     1 ≤ (antMove false ⟨989/10, 37, 1, 0⟩).y ∧
     (antMove false ⟨989/10, 37, 1, 0⟩).y < (WORLD_HEIGHT : ℚ) - 1) :=
  ⟨by norm_num [ANT_SPEED], by norm_num [ANT_SPEED],
   by norm_num [WORLD_WIDTH],
   c8_boundary_reflect false ⟨989/10, 37, 1, 0⟩ (496/5) 37
     (by norm_num [ANT_SPEED]) (by norm_num [ANT_SPEED])
     (by norm_num [WORLD_WIDTH])⟩

/-- A pickup from a patch holding at least one carry-capacity's worth
takes exactly one unit. -/
lemma pickStep_of_one_le (q : ℚ) (h : 1 ≤ q) : pickStep q = q - 1 := by
  simp only [pickStep, foragePickup, FOOD_CARRY_CAPACITY]
  rw [min_eq_left h]
  norm_num

/-- A pickup never drives a patch negative. -/
lemma pickStep_nonneg (q : ℚ) (h : 0 ≤ q) : 0 ≤ pickStep q := by
  simp only [pickStep, foragePickup, FOOD_CARRY_CAPACITY]
  by_cases h1 : 0 < min (1 : ℚ) q
  · rw [if_pos h1]
    show 0 ≤ q - min (1 : ℚ) q
    have := min_le_right (1 : ℚ) q
    linarith
  · rw [if_neg h1]
    exact h

/-- `n ≤ 30` sequential pickups from a 30-unit patch leave `30 − n`. -/
lemma pickStep_iterate (n : Nat) (h : n ≤ 30) :
    pickStep^[n] (30 : ℚ) = ((30 - n : ℕ) : ℚ) := by
  induction n with
  | zero => simp
  | succ k ih =>
    rw [Function.iterate_succ_apply', ih (by omega)]
    have h1 : (1 : ℚ) ≤ ((30 - k : ℕ) : ℚ) := by
      have hk : 1 ≤ 30 - k := by omega
      exact_mod_cast hk
    rw [pickStep_of_one_le _ h1]
    have h2 : (30 - k : ℕ) = (30 - (k + 1) : ℕ) + 1 := by omega
    rw [h2]
    push_cast
    ring

/-- The patch amount stays non-negative along any pickup sequence. -/
lemma pickStep_iterate_nonneg (k : Nat) : 0 ≤ pickStep^[k] (30 : ℚ) := by
  induction k with
  | zero => norm_num
  | succ n ih =>
    rw [Function.iterate_succ_apply']
    exact pickStep_nonneg _ ih

/-- **C9** — Every food pickup — the AI forage pickup and the player's
pickup — removes exactly `min(carry capacity, remaining amount)` from
the patch, which therefore never goes negative; and 30 sequential
successful pickups at capacity 1 deplete a 30-unit patch to exactly 0,
staying non-negative the whole way. -/
theorem c9_pickup_depletes_exactly (amount distSq carrying : ℚ)
    (st : AntState) (k : Nat) (hamt : 0 < amount)
    (hds : distSq < (3/2) ^ 2) :
    (foragePickup amount carrying st).1 =
      amount - min FOOD_CARRY_CAPACITY amount ∧
    0 ≤ (foragePickup amount carrying st).1 ∧
    (playerPickupFood distSq amount carrying st).1 =
      amount - min FOOD_CARRY_CAPACITY amount ∧
    0 ≤ (playerPickupFood distSq amount carrying st).1 ∧
    pickStep^[30] (30 : ℚ) = 0 ∧ 0 ≤ pickStep^[k] (30 : ℚ) := by
  have hmin : 0 < min FOOD_CARRY_CAPACITY amount := by
    apply lt_min _ hamt
    norm_num [FOOD_CARRY_CAPACITY]
  have hle : min FOOD_CARRY_CAPACITY amount ≤ amount := min_le_right _ _
  refine ⟨?_, ?_, ?_, ?_, ?_, pickStep_iterate_nonneg k⟩
  · unfold foragePickup
    rw [if_pos hmin]
  · unfold foragePickup
    rw [if_pos hmin]
    show 0 ≤ amount - min FOOD_CARRY_CAPACITY amount
    linarith
  · unfold playerPickupFood
    rw [if_pos ⟨hds, hamt⟩]
  · unfold playerPickupFood
    rw [if_pos ⟨hds, hamt⟩]
    show 0 ≤ amount - min FOOD_CARRY_CAPACITY amount
    linarith
  · rw [pickStep_iterate 30 (by omega)]
    norm_num

/-- The two halves of a brood pass partition the queue. -/
lemma promote_length (thr : Nat) (q : List Brood) :
    (promote thr q).1.length + (promote thr q).2.length = q.length := by
  unfold promote
  simp only [List.length_reverse]
  rw [← List.length_map q (fun b => { b with age := b.age + 1 })]
  generalize (q.map fun b => { b with age := b.age + 1 }) = l
  induction l with
  | nil => rfl
  | cons b t ih =>
    simp only [List.filter_cons, decide_eq_true_eq, List.length_cons]
    by_cases h : b.age < thr
    · have h2 : ¬ thr ≤ b.age := by omega
      rw [if_pos h, if_neg h2]
      simp only [List.length_cons]
      omega
    · have h2 : thr ≤ b.age := by omega
      rw [if_neg h, if_pos h2]
      simp only [List.length_cons]
      omega

/-- A brood pass promotes at most the whole queue. -/
lemma promote_snd_le (thr : Nat) (q : List Brood) :
    (promote thr q).2.length ≤ q.length := by
  have := promote_length thr q
  omega

/-- A brood pass keeps at most the whole queue. -/
lemma promote_fst_le (thr : Nat) (q : List Brood) :
    (promote thr q).1.length ≤ q.length := by
  have := promote_length thr q
  omega

/-- A freshly laid age-0 egg ages to 1 in the same pass and is not
promoted (thresholds are ≥ 2). -/
lemma promote_snd_append_zero (thr : Nat) (h : 2 ≤ thr) (q : List Brood)
    (t : Caste) :
    (promote thr (q ++ [⟨0, t⟩])).2 = (promote thr q).2 := by
  unfold promote
  simp only [List.map_append, List.filter_append, List.map_cons,
    List.map_nil, List.filter_cons, List.filter_nil]
  have h1 : ¬ thr ≤ (⟨0 + 1, t⟩ : Brood).age := by simp; omega
  simp [h1]

/-- A freshly laid age-0 egg stays in the queue, aged to 1. -/
lemma promote_fst_append_zero (thr : Nat) (h : 2 ≤ thr) (q : List Brood)
    (t : Caste) :
    (promote thr (q ++ [⟨0, t⟩])).1 = (promote thr q).1 ++ [⟨1, t⟩] := by
  unfold promote
  simp only [List.map_append, List.filter_append, List.map_cons,
    List.map_nil, List.filter_cons, List.filter_nil]
  have h1 : (⟨0 + 1, t⟩ : Brood).age < thr := by simp; omega
  simp [h1]

/-- The adults minted by one update's three chained brood passes number
at most the entire brood that entered the tick. -/
lemma promoted_chain_le (eggs2 larvae pupae : List Brood) :
    (promote PUPA_GROWTH_TICKS (pupae ++
      (promote LARVA_GROWTH_TICKS (larvae ++
        (promote EGG_INCUBATION_TICKS eggs2).2)).2)).2.length ≤
      pupae.length + larvae.length + eggs2.length := by
  have h1 := promote_snd_le EGG_INCUBATION_TICKS eggs2
  have h2 := promote_snd_le LARVA_GROWTH_TICKS
    (larvae ++ (promote EGG_INCUBATION_TICKS eggs2).2)
  have h3 := promote_snd_le PUPA_GROWTH_TICKS
    (pupae ++ (promote LARVA_GROWTH_TICKS
      (larvae ++ (promote EGG_INCUBATION_TICKS eggs2).2)).2)
  simp only [List.length_append] at h2 h3
  omega

/-- A filter of live ants over a roster of live ants keeps them all. -/
lemma filter_replicate_alive (n : Nat) :
    ((List.replicate n (⟨false⟩ : AntS)).filter fun a => !a.isDead) =
      List.replicate n (⟨false⟩ : AntS) := by
  induction n with
  | zero => rfl
  | succ k ih => simp [List.replicate_succ, List.filter_cons, ih]

/-- **C1, counterexample** — The roster cap is not an invariant of
`Colony.update`: a colony at the cap (200 live ants) holding one larva
of age 199 exceeds the cap after one update — the larva ages to 200,
is promoted, and (the brood passes running back-to-back over freshly
pushed items) matures into a 201st roster ant in the same tick, with no
cap check on that path. -/
theorem c1_counterexample :
    MAX_ANTS_PER_COLONY <
      (Colony.update ⟨List.replicate 200 ⟨false⟩, false, 0⟩ true
        ⟨List.replicate 200 ⟨false⟩, false, 0, [], [⟨199, Caste.WORKER⟩],
          [], 0⟩).ants.length := by
  norm_num [Colony.update, promote, layEgg, filter_replicate_alive,
    QUEEN_EGG_LAYING_INTERVAL, QUEEN_MIN_FOOD_TO_LAY, MAX_ANTS_PER_COLONY,
    EGG_INCUBATION_TICKS, LARVA_GROWTH_TICKS, PUPA_GROWTH_TICKS]

/-- **C1, amended** — After one `Colony.update` the roster can exceed
the cap only through brood promotion: its size is bounded by the
pre-tick roster size plus the whole pre-tick brood, and the cap gates
only egg enqueueing — when the pruned roster has reached the cap, the
update enqueues no egg. -/
theorem c1_amended_roster_bound (c : Colony) (ph : AntPhase) (roll : Bool)
    (hlen : ph.antsAfter.length = c.ants.length) :
    (Colony.update ph roll c).ants.length ≤
      c.ants.length + c.eggQueue.length + c.larvaQueue.length +
        c.pupaQueue.length ∧
    (MAX_ANTS_PER_COLONY ≤ (ph.antsAfter.filter fun a => !a.isDead).length →
      (Colony.update ph roll c).eggQueue.length ≤ c.eggQueue.length) := by
  have hfle : (ph.antsAfter.filter fun a => !a.isDead).length ≤
      c.ants.length := by
    rw [← hlen]
    exact List.length_filter_le _ _
  simp only [Colony.update]
  by_cases hq : ph.queenDeadAfter = true
  · simp only [hq, if_true, List.length_append, List.length_map]
    constructor
    · have := promoted_chain_le c.eggQueue c.larvaQueue c.pupaQueue
      omega
    · intro _
      exact promote_fst_le _ _
  · simp only [hq, if_false, Bool.not_eq_true] at *
    simp only [hq, Bool.false_eq_true, if_false]
    by_cases hg : QUEEN_EGG_LAYING_INTERVAL ≤ c.eggLayingTimer + 1 ∧
        QUEEN_MIN_FOOD_TO_LAY ≤ c.foodAmount + ph.foodCredit ∧
        (ph.antsAfter.filter fun a => !a.isDead).length <
          MAX_ANTS_PER_COLONY
    · simp only [if_pos hg, layEgg, List.length_append, List.length_map]
      constructor
      · rw [promote_snd_append_zero EGG_INCUBATION_TICKS
          (by norm_num [EGG_INCUBATION_TICKS]) c.eggQueue]
        have := promoted_chain_le c.eggQueue c.larvaQueue c.pupaQueue
        omega
      · intro hcap
        exact absurd hg.2.2 (by omega)
    · simp only [if_neg hg, List.length_append, List.length_map]
      constructor
      · have := promoted_chain_le c.eggQueue c.larvaQueue c.pupaQueue
        omega
      · intro _
        exact promote_fst_le _ _

/-- Witness for C1 (amended) at the scenario-A start colony. -/
theorem c1_amended_roster_bound_witness :
    queenOnlyPhase.antsAfter.length = scenarioStart.ants.length ∧
    ((Colony.update queenOnlyPhase true scenarioStart).ants.length ≤
      scenarioStart.ants.length + scenarioStart.eggQueue.length +
        scenarioStart.larvaQueue.length + scenarioStart.pupaQueue.length ∧
     (MAX_ANTS_PER_COLONY ≤
        (queenOnlyPhase.antsAfter.filter fun a => !a.isDead).length →
      (Colony.update queenOnlyPhase true scenarioStart).eggQueue.length ≤
        scenarioStart.eggQueue.length)) :=
  ⟨rfl, c1_amended_roster_bound scenarioStart queenOnlyPhase true rfl⟩

/-- A brood pass whose members are all strictly below the threshold
(after aging) keeps every one of them, aged by one. -/
lemma promote_fst_keep (thr : Nat) (q : List Brood)
    (h : ∀ b ∈ q, b.age + 1 < thr) :
    (promote thr q).1 = q.map fun b => { b with age := b.age + 1 } := by
  simp only [promote]
  apply List.filter_eq_self.mpr
  intro b hb
  rw [List.mem_map] at hb
  obtain ⟨a, ha, rfl⟩ := hb
  simpa using h a ha

/-- Scenario A, ticks 1–29: the timer advances, nothing else moves. -/
lemma scenarioStep_pre (k : Nat) (hk : k + 1 < 30) :
    scenarioStep ⟨[⟨false⟩], false, 100, [], [], [], k⟩ =
      ⟨[⟨false⟩], false, 100, [], [], [], k + 1⟩ := by
  have h30 : ¬ ((30 : Nat) ≤ k + 1) := by omega
  norm_num [scenarioStep, Colony.update, queenOnlyPhase, promote, layEgg,
    QUEEN_EGG_LAYING_INTERVAL, QUEEN_MIN_FOOD_TO_LAY, MAX_ANTS_PER_COLONY,
    h30]

/-- Scenario A, tick 30: the gate opens, one egg is laid and aged to 1,
the 5-food cost is debited, the timer resets. -/
lemma scenarioStep_lay :
    scenarioStep ⟨[⟨false⟩], false, 100, [], [], [], 29⟩ =
      ⟨[⟨false⟩], false, 95, [⟨1, Caste.WORKER⟩], [], [], 0⟩ := by
  norm_num [scenarioStep, Colony.update, queenOnlyPhase, promote, layEgg,
    QUEEN_EGG_LAYING_INTERVAL, QUEEN_MIN_FOOD_TO_LAY, MAX_ANTS_PER_COLONY,
    EGG_INCUBATION_TICKS, LARVA_GROWTH_TICKS, PUPA_GROWTH_TICKS]

/-- Scenario A closed form for the first 29 ticks. -/
lemma scenario_iter (k : Nat) (hk : k ≤ 29) :
    scenarioStep^[k] scenarioStart =
      ⟨[⟨false⟩], false, 100, [], [], [], k⟩ := by
  induction k with
  | zero => rfl
  | succ n ih =>
    rw [Function.iterate_succ_apply', ih (by omega),
      scenarioStep_pre n (by omega)]

/-- **C3** — When the queen survives the tick, the advanced timer has
reached the lay interval, the post-credit ledger meets the lay
threshold and the pruned roster is below the cap, one `Colony.update`
enqueues exactly one egg at age 0 (aged to 1 by the same tick's egg
pass), debits exactly the fixed 5-food cost once, and resets the timer
to 0; and in Scenario A (food 100, threshold 50, interval 30, cost 5,
timer 0) 30 ticks yield exactly one enqueued egg and a ledger of 95. -/
theorem c3_single_egg_per_interval (c : Colony) (ph : AntPhase)
    (roll : Bool) (hq : ph.queenDeadAfter = false)
    (ht : QUEEN_EGG_LAYING_INTERVAL ≤ c.eggLayingTimer + 1)
    (hf : QUEEN_MIN_FOOD_TO_LAY ≤ c.foodAmount + ph.foodCredit)
    (hcap : (ph.antsAfter.filter fun a => !a.isDead).length <
      MAX_ANTS_PER_COLONY)
    (hnp : ∀ b ∈ c.eggQueue, b.age + 1 < EGG_INCUBATION_TICKS) :
    (Colony.update ph roll c).eggQueue =
      (c.eggQueue.map fun b => { b with age := b.age + 1 }) ++
        [⟨1, if roll then Caste.WORKER else Caste.SOLDIER⟩] ∧
    (Colony.update ph roll c).foodAmount = c.foodAmount + ph.foodCredit - 5 ∧
    (Colony.update ph roll c).eggLayingTimer = 0 ∧
    (scenarioStep^[30] scenarioStart).eggQueue.length = 1 ∧
    (scenarioStep^[30] scenarioStart).foodAmount = 95 := by
  have hgate : QUEEN_EGG_LAYING_INTERVAL ≤ c.eggLayingTimer + 1 ∧
      QUEEN_MIN_FOOD_TO_LAY ≤ c.foodAmount + ph.foodCredit ∧
      (ph.antsAfter.filter fun a => !a.isDead).length <
        MAX_ANTS_PER_COLONY := ⟨ht, hf, hcap⟩
  have h30 : scenarioStep^[30] scenarioStart =
      ⟨[⟨false⟩], false, 95, [⟨1, Caste.WORKER⟩], [], [], 0⟩ := by
    have : (30 : Nat) = 29 + 1 := rfl
    rw [this, Function.iterate_succ_apply', scenario_iter 29 (by omega),
      scenarioStep_lay]
  refine ⟨?_, ?_, ?_, by rw [h30]; rfl, by rw [h30]⟩
  · simp only [Colony.update, hq, Bool.false_eq_true, if_false,
      if_pos hgate, layEgg]
    rw [promote_fst_append_zero EGG_INCUBATION_TICKS
      (by norm_num [EGG_INCUBATION_TICKS]) c.eggQueue,
      promote_fst_keep EGG_INCUBATION_TICKS c.eggQueue hnp]
  · simp only [Colony.update, hq, Bool.false_eq_true, if_false,
      if_pos hgate, layEgg]
  · simp only [Colony.update, hq, Bool.false_eq_true, if_false,
      if_pos hgate, layEgg]

/-- Witness for C3: the Scenario-A colony at tick 30 (timer 29, food
100, queen-only roster). -/
theorem c3_single_egg_per_interval_witness :
    queenOnlyPhase.queenDeadAfter = false ∧
    QUEEN_EGG_LAYING_INTERVAL ≤ 29 + 1 ∧
    QUEEN_MIN_FOOD_TO_LAY ≤ (100 : ℚ) + queenOnlyPhase.foodCredit ∧
    (queenOnlyPhase.antsAfter.filter fun a => !a.isDead).length <
      MAX_ANTS_PER_COLONY ∧
    ((Colony.update queenOnlyPhase true
        ⟨[⟨false⟩], false, 100, [], [], [], 29⟩).eggQueue =
      (([] : List Brood).map fun b => { b with age := b.age + 1 }) ++
        [⟨1, if true then Caste.WORKER else Caste.SOLDIER⟩] ∧
     (Colony.update queenOnlyPhase true
        ⟨[⟨false⟩], false, 100, [], [], [], 29⟩).foodAmount =
          100 + queenOnlyPhase.foodCredit - 5 ∧
     (Colony.update queenOnlyPhase true
        ⟨[⟨false⟩], false, 100, [], [], [], 29⟩).eggLayingTimer = 0 ∧
     (scenarioStep^[30] scenarioStart).eggQueue.length = 1 ∧
     (scenarioStep^[30] scenarioStart).foodAmount = 95) :=
  ⟨rfl, by norm_num [QUEEN_EGG_LAYING_INTERVAL],
   by norm_num [QUEEN_MIN_FOOD_TO_LAY, queenOnlyPhase],
   by norm_num [queenOnlyPhase, MAX_ANTS_PER_COLONY],
   c3_single_egg_per_interval ⟨[⟨false⟩], false, 100, [], [], [], 29⟩
     queenOnlyPhase true rfl (by norm_num [QUEEN_EGG_LAYING_INTERVAL])
     (by norm_num [QUEEN_MIN_FOOD_TO_LAY, queenOnlyPhase])
     (by norm_num [queenOnlyPhase, MAX_ANTS_PER_COLONY])
     (by intro b hb; simp at hb)⟩

/-- `Colony.update` passes the queen's post-pass dead flag through
unchanged — the egg gate and the brood passes never write it. -/
lemma colonyUpdate_queenDead (ph : AntPhase) (roll : Bool) (c : Colony) :
    (Colony.update ph roll c).queenDead = ph.queenDeadAfter := by
  simp only [Colony.update]
  split
  · rfl
  · split
    · rfl
    · rfl

/-- **C4** — At the end of every non-skipped `updateTick`: a dead
player queen (after the colony updates) sets game over with outcome
LOST; a dead enemy queen with the player queen alive sets game over
with outcome WON; and when both queens died in the same tick, the
player-first check order decides — the outcome is LOST. -/
theorem c4_gameover_check_order (phA phB : AntPhase) (rA rB : Bool)
    (s : EngineS) (hgo : s.gameOver = false) (hp : s.isPaused = false) :
    ((updateTick phA phB rA rB s).playerColony.queenDead = true →
      (updateTick phA phB rA rB s).gameOver = true ∧
      (updateTick phA phB rA rB s).victoryState = some Victory.LOST) ∧
    ((updateTick phA phB rA rB s).playerColony.queenDead = false →
      (updateTick phA phB rA rB s).enemyColony.queenDead = true →
      (updateTick phA phB rA rB s).gameOver = true ∧
      (updateTick phA phB rA rB s).victoryState = some Victory.WON) ∧
    ((updateTick phA phB rA rB s).playerColony.queenDead = true →
      (updateTick phA phB rA rB s).enemyColony.queenDead = true →
      (updateTick phA phB rA rB s).victoryState = some Victory.LOST) := by
  simp only [updateTick, hgo, hp, Bool.or_false, Bool.false_or,
    Bool.false_eq_true, if_false, Bool.not_false, Bool.and_true]
  by_cases hA : (Colony.update phA rA s.playerColony).queenDead = true <;>
    by_cases hB : (Colony.update phB rB s.enemyColony).queenDead = true <;>
    simp [hA, hB]

/-- Witness for C4: a start state whose tick kills both queens — the
outcome is LOST. -/
theorem c4_gameover_check_order_witness :
    (⟨⟨emptyGrid, []⟩, scenarioStart, scenarioStart, 0, false, false,
        none⟩ : EngineS).gameOver = false ∧
    (⟨⟨emptyGrid, []⟩, scenarioStart, scenarioStart, 0, false, false,
        none⟩ : EngineS).isPaused = false ∧
    (((updateTick ⟨[⟨false⟩], true, 0⟩ ⟨[⟨false⟩], true, 0⟩ true true
        ⟨⟨emptyGrid, []⟩, scenarioStart, scenarioStart, 0, false, false,
          none⟩).playerColony.queenDead = true →
      (updateTick ⟨[⟨false⟩], true, 0⟩ ⟨[⟨false⟩], true, 0⟩ true true
        ⟨⟨emptyGrid, []⟩, scenarioStart, scenarioStart, 0, false, false,
          none⟩).gameOver = true ∧
      (updateTick ⟨[⟨false⟩], true, 0⟩ ⟨[⟨false⟩], true, 0⟩ true true
        ⟨⟨emptyGrid, []⟩, scenarioStart, scenarioStart, 0, false, false,
          none⟩).victoryState = some Victory.LOST) ∧
     ((updateTick ⟨[⟨false⟩], true, 0⟩ ⟨[⟨false⟩], true, 0⟩ true true
        ⟨⟨emptyGrid, []⟩, scenarioStart, scenarioStart, 0, false, false,
          none⟩).playerColony.queenDead = false →
      (updateTick ⟨[⟨false⟩], true, 0⟩ ⟨[⟨false⟩], true, 0⟩ true true
        ⟨⟨emptyGrid, []⟩, scenarioStart, scenarioStart, 0, false, false,
          none⟩).enemyColony.queenDead = true →
      (updateTick ⟨[⟨false⟩], true, 0⟩ ⟨[⟨false⟩], true, 0⟩ true true
        ⟨⟨emptyGrid, []⟩, scenarioStart, scenarioStart, 0, false, false,
          none⟩).gameOver = true ∧
      (updateTick ⟨[⟨false⟩], true, 0⟩ ⟨[⟨false⟩], true, 0⟩ true true
        ⟨⟨emptyGrid, []⟩, scenarioStart, scenarioStart, 0, false, false,
          none⟩).victoryState = some Victory.WON) ∧
     ((updateTick ⟨[⟨false⟩], true, 0⟩ ⟨[⟨false⟩], true, 0⟩ true true
        ⟨⟨emptyGrid, []⟩, scenarioStart, scenarioStart, 0, false, false,
          none⟩).playerColony.queenDead = true →
      (updateTick ⟨[⟨false⟩], true, 0⟩ ⟨[⟨false⟩], true, 0⟩ true true
        ⟨⟨emptyGrid, []⟩, scenarioStart, scenarioStart, 0, false, false,
          none⟩).enemyColony.queenDead = true →
      (updateTick ⟨[⟨false⟩], true, 0⟩ ⟨[⟨false⟩], true, 0⟩ true true
        ⟨⟨emptyGrid, []⟩, scenarioStart, scenarioStart, 0, false, false,
          none⟩).victoryState = some Victory.LOST)) :=
  ⟨rfl, rfl,
   c4_gameover_check_order ⟨[⟨false⟩], true, 0⟩ ⟨[⟨false⟩], true, 0⟩
     true true
     ⟨⟨emptyGrid, []⟩, scenarioStart, scenarioStart, 0, false, false, none⟩
     rfl rfl⟩

/-- Witness for C9: a 3-unit patch, squared pickup distance 1, after 7
of the 30 scenario pickups. -/
theorem c9_pickup_depletes_exactly_witness :
    (0 : ℚ) < 3 ∧ (1 : ℚ) < (3/2) ^ 2 ∧
    ((foragePickup 3 0 AntState.WANDERING).1 =
        3 - min FOOD_CARRY_CAPACITY 3 ∧
     0 ≤ (foragePickup 3 0 AntState.WANDERING).1 ∧
     (playerPickupFood 1 3 0 AntState.WANDERING).1 =
        3 - min FOOD_CARRY_CAPACITY 3 ∧
     0 ≤ (playerPickupFood 1 3 0 AntState.WANDERING).1 ∧
     pickStep^[30] (30 : ℚ) = 0 ∧ 0 ≤ pickStep^[7] (30 : ℚ)) :=
  ⟨by norm_num, by norm_num,
   c9_pickup_depletes_exactly 3 1 0 AntState.WANDERING 7 (by norm_num)
     (by norm_num)⟩

end Antenboro
